import Mathlib

/-!
Shallow embedding of the `file-lock` crate (src/flock.rs): a lazily
materialized advisory file lock.  The `FileLock` struct and its methods are
translated from the Rust source; the operating system (filesystem and the
`lock` module's advisory-locking primitive) is modelled as an explicit world
state plus failure-injection oracles, and every effectful call the code makes
is recorded in an event trace.
-/

namespace Flock

/-- The external `lock` module's access-mode enumeration `{Read, Write}`. -/
inductive AccessMode
  | Read
  | Write
deriving DecidableEq

/-- The external `lock` module's lock-kind enumeration `{Blocking, NonBlocking}`. -/
inductive LockKind
  | Blocking
  | NonBlocking
deriving DecidableEq

/-- Kinds of `std::io::Error` that matter here (`io::ErrorKind`). -/
inductive IoErrorKind
  | NotFound
  | PermissionDenied
  | Interrupted
  | OtherKind
deriving DecidableEq

/-- A `std::io::Error`: a kind together with a message. -/
structure IoError where
  kind : IoErrorKind
  msg : String
deriving DecidableEq

/-- Modelled from the spec: the `lock` module's error type (its code is not in
src/).  Per the spec the primitive surfaces contention under non-blocking mode
(`wouldBlock`), an invalid descriptor, or signal interruption. -/
inductive LockPrimError
  | wouldBlock
  | invalidDescriptor
  | interrupted
deriving DecidableEq

/-- The crate's `Error` enum: wraps either a locking-primitive failure or an
I/O failure (src/flock.rs lines 9-13). -/
inductive Error
  | LockError (e : LockPrimError)
  | IoError (e : IoError)
deriving DecidableEq

/-- Events the component can ask the operating system to perform.  `deleteCall`
is offered by the filesystem interface but the implementation never emits it. -/
inductive Event
  | openCall (p : String) (create rd wr : Bool)
  | lockCall (fd : Nat) (kind : LockKind) (mode : AccessMode)
  | unlockCall (fd : Nat)
  | deleteCall (p : String)
deriving DecidableEq

/-- The operating-system world: which paths exist, the next fresh descriptor,
which open descriptors map to which path, and the advisory-lock table (one
entry per descriptor holding a lock, with its path and mode). -/
structure World where
  files : List String
  nextFd : Nat
  openFds : List (Nat × String)
  locks : List (Nat × String × AccessMode)
deriving DecidableEq

/-- Failure-injection oracles abstracting OS nondeterminism: whether an open
of a given path fails, and whether a lock/unlock call fails for a reason other
than contention (for example signal interruption). -/
structure Oracle where
  openErr : String → Option IoError
  lockFail : Nat → LockKind → AccessMode → Option LockPrimError
  unlockFail : Nat → Option LockPrimError

/-- Modelled from the spec: the standard filesystem open call used by
`OpenOptions::new().create(c).read(r).write(w).open(path)`.  On success it
creates the file if missing (when `create` is set), allocates a fresh
descriptor and records its path; on failure the world is unchanged. -/
def osOpen (o : Oracle) (w : World) (p : String) (create rd wr : Bool) :
    Except IoError Nat × World × List Event :=
  let ev : List Event := [Event.openCall p create rd wr]
  match o.openErr p with
  | some e => (Except.error e, w, ev)
  | none =>
    if create || w.files.contains p then
      (Except.ok w.nextFd,
       { files := if w.files.contains p then w.files else p :: w.files
         nextFd := w.nextFd + 1
         openFds := (w.nextFd, p) :: w.openFds
         locks := w.locks }, ev)
    else
      (Except.error { kind := IoErrorKind.NotFound, msg := "no such file" }, w, ev)

/-- Does a request by descriptor `fd` for mode `m` on path `p` conflict with
an existing lock-table entry?  Modelled from the spec: Read is shared, Write
is exclusive, and entries held by the same descriptor never conflict. -/
def conflicts (locks : List (Nat × String × AccessMode)) (fd : Nat) (p : String)
    (m : AccessMode) : Bool :=
  locks.any fun e =>
    e.2.1 == p && !(e.1 == fd) && (m == AccessMode.Write || e.2.2 == AccessMode.Write)

/-- Outcome of one call to the locking primitive: success, an error, or (for a
blocking request under contention) an unresolved suspension of the caller. -/
inductive PrimResult
  | ok
  | err (e : LockPrimError)
  | wouldWait
deriving DecidableEq

/-- Modelled from the spec: the `lock` module's `lock(fd, kind, mode)`.
An unknown descriptor is an error; a conflicting holder makes a non-blocking
request fail with a would-block error and a blocking request suspend;
otherwise, barring an injected failure, the lock is recorded for `fd`
(re-acquisition by the same descriptor replaces its entry). -/
def primLock (o : Oracle) (w : World) (fd : Nat) (kind : LockKind)
    (mode : AccessMode) : PrimResult × World :=
  match w.openFds.lookup fd with
  | none => (PrimResult.err LockPrimError.invalidDescriptor, w)
  | some p =>
    if conflicts w.locks fd p mode then
      match kind with
      | LockKind.NonBlocking => (PrimResult.err LockPrimError.wouldBlock, w)
      | LockKind.Blocking => (PrimResult.wouldWait, w)
    else
      match o.lockFail fd kind mode with
      | some e => (PrimResult.err e, w)
      | none =>
        (PrimResult.ok,
         { w with locks := (fd, p, mode) :: w.locks.filter fun e => !(e.1 == fd) })

/-- Modelled from the spec: the `lock` module's `unlock(fd)`.  An unknown
descriptor is an error; otherwise, barring an injected failure, every lock
entry held by `fd` is released. -/
def primUnlock (o : Oracle) (w : World) (fd : Nat) :
    Except LockPrimError Unit × World :=
  match w.openFds.lookup fd with
  | none => (Except.error LockPrimError.invalidDescriptor, w)
  | some _ =>
    match o.unlockFail fd with
    | some e => (Except.error e, w)
    | none => (Except.ok (), { w with locks := w.locks.filter fun e => !(e.1 == fd) })

/-- The `FileLock` struct (src/flock.rs lines 34-39): a path, an optional
lazily opened file handle (represented by its raw descriptor), and the access
mode fixed at construction. -/
structure FileLock where
  path : String
  file : Option Nat
  mode : AccessMode
deriving DecidableEq

/-- Result of running one `FileLock` method: its return value, the instance
state and world afterwards, and the trace of OS calls it made. -/
structure Outcome (α : Type) where
  res : α
  fl : FileLock
  w : World
  tr : List Event
deriving DecidableEq

/-- Rust `FileLock::new(path, mode)` (src/flock.rs lines 42-48): pure construction,
handle absent. -/
def FileLock.new (path : String) (mode : AccessMode) : FileLock :=
  { path := path, file := none, mode := mode }

/-- Rust `FileLock::opened_file` (src/flock.rs lines 50-61): return the cached
handle if present, otherwise open the path with create = true, read iff the
mode is Read, write iff the mode is Write, and cache the handle; an open
failure is surfaced and leaves the handle absent. -/
def FileLock.opened_file (o : Oracle) (w : World) (fl : FileLock) :
    Outcome (Except IoError Nat) :=
  match fl.file with
  | some fd => { res := Except.ok fd, fl := fl, w := w, tr := [] }
  | none =>
    match osOpen o w fl.path true (fl.mode == AccessMode.Read)
        (fl.mode == AccessMode.Write) with
    | (Except.ok fd, w2, tr) =>
      { res := Except.ok fd, fl := { fl with file := some fd }, w := w2, tr := tr }
    | (Except.error e, w2, tr) =>
      { res := Except.error e, fl := fl, w := w2, tr := tr }

/-- Rust `FileLock::any_lock(kind)` (src/flock.rs lines 63-67): ensure the handle
is open, then request the advisory lock on its raw descriptor with the given
kind and the instance's mode.  A `none` result stands for a blocking request
left suspended by contention. -/
def FileLock.any_lock (o : Oracle) (w : World) (fl : FileLock) (kind : LockKind) :
    Outcome (Option (Except Error Unit)) :=
  match FileLock.opened_file o w fl with
  | { res := Except.error e, fl := fl2, w := w2, tr := tr } =>
    { res := some (Except.error (Error.IoError e)), fl := fl2, w := w2, tr := tr }
  | { res := Except.ok fd, fl := fl2, w := w2, tr := tr } =>
    match primLock o w2 fd kind fl2.mode with
    | (PrimResult.ok, w3) =>
      { res := some (Except.ok ()), fl := fl2, w := w3,
        tr := tr ++ [Event.lockCall fd kind fl2.mode] }
    | (PrimResult.err e, w3) =>
      { res := some (Except.error (Error.LockError e)), fl := fl2, w := w3,
        tr := tr ++ [Event.lockCall fd kind fl2.mode] }
    | (PrimResult.wouldWait, w3) =>
      { res := none, fl := fl2, w := w3,
        tr := tr ++ [Event.lockCall fd kind fl2.mode] }

/-- Rust `FileLock::lock` (src/flock.rs lines 69-71). -/
def FileLock.lock (o : Oracle) (w : World) (fl : FileLock) :
    Outcome (Option (Except Error Unit)) :=
  FileLock.any_lock o w fl LockKind.Blocking

/-- Rust `FileLock::try_lock` (src/flock.rs lines 73-75). -/
def FileLock.try_lock (o : Oracle) (w : World) (fl : FileLock) :
    Outcome (Option (Except Error Unit)) :=
  FileLock.any_lock o w fl LockKind.NonBlocking

/-- The exact message of the synthetic error in `FileLock::unlock`. -/
def unlockBeforeLockMsg : String := "unlock() called before lock() or try_lock()"

/-- Rust `FileLock::unlock` (src/flock.rs lines 77-83): with a cached handle,
delegate to the primitive's unlock on its descriptor; otherwise fail with a
NotFound I/O error without touching the OS. -/
def FileLock.unlock (o : Oracle) (w : World) (fl : FileLock) :
    Outcome (Except Error Unit) :=
  match fl.file with
  | some fd =>
    match primUnlock o w fd with
    | (Except.ok _, w2) =>
      { res := Except.ok (), fl := fl, w := w2, tr := [Event.unlockCall fd] }
    | (Except.error e, w2) =>
      { res := Except.error (Error.LockError e), fl := fl, w := w2,
        tr := [Event.unlockCall fd] }
  | none =>
    { res := Except.error (Error.IoError
        { kind := IoErrorKind.NotFound, msg := unlockBeforeLockMsg }),
      fl := fl, w := w, tr := [] }

/-- Rust `Drop for FileLock` (src/flock.rs lines 90-94): `self.unlock().ok();` —
call unlock and discard its result. -/
def FileLock.drop (o : Oracle) (w : World) (fl : FileLock) : Outcome Unit :=
  match FileLock.unlock o w fl with
  | { res := _, fl := fl2, w := w2, tr := tr } =>
    { res := (), fl := fl2, w := w2, tr := tr }

/-- Rust `FileLock::path` (src/flock.rs lines 85-87): the stored path, pure. -/
def FileLock.pathAcc (fl : FileLock) : String := fl.path

/-- Does a trace contain a filesystem deletion request? -/
def hasDelete (tr : List Event) : Bool :=
  tr.any fun e =>
    match e with
    | Event.deleteCall _ => true
    | _ => false

/-- The per-operation state invariant of a `FileLock` instance: path and mode
are untouched, and a cached handle is kept as it is. -/
def preserves (fl fl2 : FileLock) : Prop :=
  fl2.path = fl.path ∧ fl2.mode = fl.mode ∧
    ∀ fd, fl.file = some fd → fl2.file = some fd

/-- A benign oracle: no injected failures anywhere. -/
def oracle0 : Oracle where
  openErr := fun _ => none
  lockFail := fun _ _ _ => none
  unlockFail := fun _ => none

/-- The empty world: no files, no descriptors, no locks. -/
def world0 : World where
  files := []
  nextFd := 0
  openFds := []
  locks := []

/-- A freshly constructed instance, nothing opened yet. -/
def flFresh : FileLock := FileLock.new "p" AccessMode.Read

/-- An instance whose handle has been cached as descriptor 0. -/
def flCached : FileLock := { path := "p", file := some 0, mode := AccessMode.Read }

/-- A world where descriptor 0 (a writer) and descriptor 1 are open on path
"p" and descriptor 0 holds the exclusive lock. -/
def worldHeld : World where
  files := ["p"]
  nextFd := 2
  openFds := [(0, "p"), (1, "p")]
  locks := [(0, "p", AccessMode.Write)]

/-- A second, independently opened reader instance on path "p". -/
def flReader : FileLock := { path := "p", file := some 1, mode := AccessMode.Read }

/-- The writer instance owning descriptor 0 on path "p". -/
def flWriter : FileLock := { path := "p", file := some 0, mode := AccessMode.Write }

/-! ## Helper lemmas -/

/-- Handle acquisition never touches the stored path or mode, and keeps a cached
handle exactly as it is. -/
theorem opened_file_keeps (o : Oracle) (w : World) (fl : FileLock) :
    (FileLock.opened_file o w fl).fl.path = fl.path ∧
    (FileLock.opened_file o w fl).fl.mode = fl.mode ∧
    ∀ fd, fl.file = some fd → (FileLock.opened_file o w fl).fl.file = some fd := by
  cases hf : fl.file with
  | some fd => simp [FileLock.opened_file, hf]
  | none =>
    unfold FileLock.opened_file osOpen
    cases ho : o.openErr fl.path <;> simp [hf, ho]

/-- Primitive lock changes only the lock table. -/
theorem primLock_frame (o : Oracle) (w : World) (fd : Nat) (kind : LockKind)
    (mode : AccessMode) :
    (primLock o w fd kind mode).2.files = w.files ∧
    (primLock o w fd kind mode).2.openFds = w.openFds ∧
    (primLock o w fd kind mode).2.nextFd = w.nextFd := by
  unfold primLock
  cases hl : w.openFds.lookup fd with
  | none => simp
  | some p =>
    simp only
    split
    · split <;> simp
    · cases hf : o.lockFail fd kind mode <;> simp

/-- Primitive unlock changes only the lock table. -/
theorem primUnlock_frame (o : Oracle) (w : World) (fd : Nat) :
    (primUnlock o w fd).2.files = w.files ∧
    (primUnlock o w fd).2.openFds = w.openFds ∧
    (primUnlock o w fd).2.nextFd = w.nextFd := by
  unfold primUnlock
  cases hl : w.openFds.lookup fd with
  | none => simp
  | some p => cases hf : o.unlockFail fd <;> simp

/-- Filtering the lock table cannot create a conflict. -/
theorem conflicts_filter_false (l : List (Nat × String × AccessMode))
    (q : Nat × String × AccessMode → Bool) (fd : Nat) (p : String) (m : AccessMode)
    (h : conflicts l fd p m = false) : conflicts (l.filter q) fd p m = false := by
  rw [Bool.eq_false_iff] at h ⊢
  intro hc
  apply h
  unfold conflicts at hc ⊢
  rw [List.any_eq_true] at hc ⊢
  obtain ⟨x, hx, hpx⟩ := hc
  exact ⟨x, List.mem_of_mem_filter hx, hpx⟩

/-- A Write lock held by a different descriptor on the same path conflicts
with every request on that path. -/
theorem conflicts_of_mem_write (l : List (Nat × String × AccessMode))
    (fd1 fd2 : Nat) (p : String) (m : AccessMode)
    (hmem : (fd1, p, AccessMode.Write) ∈ l) (hne : fd2 ≠ fd1) :
    conflicts l fd2 p m = true := by
  unfold conflicts
  rw [List.any_eq_true]
  refine ⟨(fd1, p, AccessMode.Write), hmem, ?_⟩
  simp [Ne.symm hne]

/-! ## The claims -/

/-- Claim C5: `new(P, M)` is a pure total function (its type involves neither
the world nor an error result, so it can do no I/O and cannot fail) yielding
an instance with path `P`, mode `M`, and an absent file handle. -/
theorem new_spec (p : String) (m : AccessMode) :
    (FileLock.new p m).path = p ∧ (FileLock.new p m).mode = m ∧
      (FileLock.new p m).file = none :=
  ⟨rfl, rfl, rfl⟩

/-- Claim C1: destruction runs `unlock()` exactly once — the drop glue equals
that single unlock invocation with its result discarded — for every instance
state and world, i.e. regardless of how prior operations fared. -/
theorem drop_runs_unlock_once (o : Oracle) (w : World) (fl : FileLock) :
    FileLock.drop o w fl =
      { res := (), fl := (FileLock.unlock o w fl).fl,
        w := (FileLock.unlock o w fl).w, tr := (FileLock.unlock o w fl).tr } := by
  cases hu : FileLock.unlock o w fl
  simp [FileLock.drop, hu]

/-- Claim C2: `unlock()` returns the NotFound I/O error exactly when no handle
has been cached yet; with a cached handle it delegates to the primitive's
unlock on that descriptor, returning its result (wrapped as a lock error on
failure) and its world. -/
theorem unlock_spec (o : Oracle) (w : World) (fl : FileLock) :
    ((FileLock.unlock o w fl).res =
        Except.error (Error.IoError
          { kind := IoErrorKind.NotFound, msg := unlockBeforeLockMsg }) ↔
      fl.file = none) ∧
    (∀ fd, fl.file = some fd →
      (FileLock.unlock o w fl).res =
        (match (primUnlock o w fd).1 with
         | Except.ok _ => Except.ok ()
         | Except.error e => Except.error (Error.LockError e)) ∧
      (FileLock.unlock o w fl).w = (primUnlock o w fd).2 ∧
      (FileLock.unlock o w fl).tr = [Event.unlockCall fd]) := by
  cases hf : fl.file with
  | none => simp [FileLock.unlock, hf]
  | some fd =>
    cases hp : primUnlock o w fd with
    | mk r w2 => cases r <;> simp [FileLock.unlock, hf, hp]

/-- Witness for C2 at a concrete cached instance. -/
theorem unlock_spec_witness :
    (FileLock.unlock oracle0 world0 flCached).tr = [Event.unlockCall 0] :=
  ((unlock_spec oracle0 world0 flCached).2 0 rfl).2.2

/-- Claim C10: on an instance that never attempted acquisition, `unlock()` —
and hence the destructor — opens nothing, calls no primitive, changes neither
the instance nor the world, and only produces (or, for drop, discards) the
NotFound error. -/
theorem fresh_unlock_frame (o : Oracle) (w : World) (fl : FileLock)
    (h : fl.file = none) :
    FileLock.unlock o w fl =
      { res := Except.error (Error.IoError
          { kind := IoErrorKind.NotFound, msg := unlockBeforeLockMsg }),
        fl := fl, w := w, tr := [] } ∧
    FileLock.drop o w fl = { res := (), fl := fl, w := w, tr := [] } := by
  constructor
  · simp [FileLock.unlock, h]
  · simp [FileLock.drop, FileLock.unlock, h]

/-- Witness for C10 on a fresh instance in the empty world. -/
theorem fresh_unlock_frame_witness :
    flFresh.file = none ∧
    FileLock.drop oracle0 world0 flFresh =
      { res := (), fl := flFresh, w := world0, tr := [] } :=
  ⟨rfl, (fresh_unlock_frame oracle0 world0 flFresh rfl).2⟩

/-- Claim C3: handle acquisition returns the cached handle when present;
otherwise it opens the stored path with create = true, read iff the mode is
Read, write iff the mode is Write (exactly one of the two), caches the fresh
descriptor and creates the file, and on an injected open failure surfaces the
error with the handle still absent (so the next call retries the open). -/
theorem opened_file_spec (o : Oracle) (w : World) (fl : FileLock) :
    (∀ fd, fl.file = some fd →
      FileLock.opened_file o w fl = { res := Except.ok fd, fl := fl, w := w, tr := [] }) ∧
    (fl.file = none → ∀ e, o.openErr fl.path = some e →
      FileLock.opened_file o w fl =
        { res := Except.error e, fl := fl, w := w,
          tr := [Event.openCall fl.path true (fl.mode == AccessMode.Read)
                   (fl.mode == AccessMode.Write)] }) ∧
    (fl.file = none → o.openErr fl.path = none →
      (FileLock.opened_file o w fl).res = Except.ok w.nextFd ∧
      (FileLock.opened_file o w fl).fl = { fl with file := some w.nextFd } ∧
      (FileLock.opened_file o w fl).w.files.contains fl.path = true ∧
      (FileLock.opened_file o w fl).tr =
        [Event.openCall fl.path true (fl.mode == AccessMode.Read)
           (fl.mode == AccessMode.Write)]) ∧
    (fl.mode == AccessMode.Read) = !(fl.mode == AccessMode.Write) := by
  refine ⟨?_, ?_, ?_, ?_⟩
  · intro fd hf
    simp [FileLock.opened_file, hf]
  · intro hf e he
    simp [FileLock.opened_file, osOpen, hf, he]
  · intro hf he
    unfold FileLock.opened_file osOpen
    rw [hf, he]
    simp
    split
    · assumption
    · exact List.mem_cons_self _ _
  · cases hm : fl.mode <;> decide

/-- Witness for C3: the first open in the empty world caches descriptor 0. -/
theorem opened_file_spec_witness :
    (FileLock.opened_file oracle0 world0 flFresh).res = Except.ok 0 ∧
    (FileLock.opened_file oracle0 world0 flFresh).w.files.contains "p" = true :=
  ⟨((opened_file_spec oracle0 world0 flFresh).2.2.1 rfl rfl).1,
   ((opened_file_spec oracle0 world0 flFresh).2.2.1 rfl rfl).2.2.1⟩

/-- Claim C4: `lock` and `try_lock` are exactly `any_lock` at Blocking and
NonBlocking, and `any_lock` first runs handle acquisition, then — if the
handle is available — issues exactly one primitive lock request on that
descriptor with the given kind and the construction-time mode (an open
failure short-circuits with the I/O error and no lock request). -/
theorem any_lock_spec (o : Oracle) (w : World) (fl : FileLock) (kind : LockKind) :
    FileLock.lock o w fl = FileLock.any_lock o w fl LockKind.Blocking ∧
    FileLock.try_lock o w fl = FileLock.any_lock o w fl LockKind.NonBlocking ∧
    (∀ e, (FileLock.opened_file o w fl).res = Except.error e →
      FileLock.any_lock o w fl kind =
        { res := some (Except.error (Error.IoError e)),
          fl := (FileLock.opened_file o w fl).fl,
          w := (FileLock.opened_file o w fl).w,
          tr := (FileLock.opened_file o w fl).tr }) ∧
    (∀ fd, (FileLock.opened_file o w fl).res = Except.ok fd →
      (FileLock.any_lock o w fl kind).tr =
        (FileLock.opened_file o w fl).tr ++ [Event.lockCall fd kind fl.mode] ∧
      (FileLock.any_lock o w fl kind).w =
        (primLock o (FileLock.opened_file o w fl).w fd kind fl.mode).2 ∧
      (FileLock.any_lock o w fl kind).fl = (FileLock.opened_file o w fl).fl) := by
  refine ⟨rfl, rfl, ?_, ?_⟩
  · intro e he
    cases ho : FileLock.opened_file o w fl with
    | mk r fl2 w2 tr =>
      rw [ho] at he
      have he2 : r = Except.error e := he
      subst he2
      simp [FileLock.any_lock, ho]
  · intro fd he
    have hm := (opened_file_keeps o w fl).2.1
    cases ho : FileLock.opened_file o w fl with
    | mk r fl2 w2 tr =>
      rw [ho] at he hm
      have he2 : r = Except.ok fd := he
      subst he2
      have hm2 : fl2.mode = fl.mode := hm
      simp only [FileLock.any_lock, ho]
      rw [hm2]
      cases hp : primLock o w2 fd kind fl.mode with
      | mk pr w3 => cases pr <;> simp [hp]

/-- Witness for C4 on a cached reader: one lock request with the fixed mode. -/
theorem any_lock_spec_witness :
    (FileLock.any_lock oracle0 world0 flCached LockKind.NonBlocking).tr =
      [Event.lockCall 0 LockKind.NonBlocking AccessMode.Read] :=
  ((any_lock_spec oracle0 world0 flCached LockKind.NonBlocking).2.2.2 0 rfl).1

/-- The instance state after `any_lock` is exactly the one `opened_file`
produced: the primitive call never touches the struct. -/
theorem any_lock_fl_eq (o : Oracle) (w : World) (fl : FileLock) (kind : LockKind) :
    (FileLock.any_lock o w fl kind).fl = (FileLock.opened_file o w fl).fl := by
  unfold FileLock.any_lock
  cases ho : FileLock.opened_file o w fl with
  | mk r fl2 w2 tr =>
    cases r with
    | error e => simp
    | ok fd =>
      cases hp : primLock o w2 fd kind fl2.mode with
      | mk pr w3 => cases pr <;> simp [hp]

/-- Release never touches the instance state. -/
theorem unlock_fl_eq (o : Oracle) (w : World) (fl : FileLock) :
    (FileLock.unlock o w fl).fl = fl := by
  unfold FileLock.unlock
  cases hf : fl.file with
  | none => simp
  | some fd =>
    cases hp : primUnlock o w fd with
    | mk r w2 => cases r <;> simp [hp]

/-- The drop glue returns the state, world and trace of its unlock call. -/
theorem drop_parts (o : Oracle) (w : World) (fl : FileLock) :
    (FileLock.drop o w fl).fl = (FileLock.unlock o w fl).fl ∧
    (FileLock.drop o w fl).w = (FileLock.unlock o w fl).w ∧
    (FileLock.drop o w fl).tr = (FileLock.unlock o w fl).tr := by
  unfold FileLock.drop
  cases hu : FileLock.unlock o w fl with
  | mk r fl2 w2 tr => simp

/-- Claim C6: every operation leaves the stored path and mode untouched, and a
cached handle is never reopened, replaced or cleared — in particular, with a
cached handle the whole acquisition trace is the single lock request on that
same descriptor, with no open call. -/
theorem state_invariant (o : Oracle) (w : World) (fl : FileLock) (kind : LockKind) :
    preserves fl (FileLock.any_lock o w fl kind).fl ∧
    preserves fl (FileLock.lock o w fl).fl ∧
    preserves fl (FileLock.try_lock o w fl).fl ∧
    preserves fl (FileLock.unlock o w fl).fl ∧
    preserves fl (FileLock.drop o w fl).fl ∧
    (∀ fd, fl.file = some fd →
      (FileLock.any_lock o w fl kind).tr = [Event.lockCall fd kind fl.mode]) ∧
    FileLock.pathAcc fl = fl.path := by
  have hof := opened_file_keeps o w fl
  have hal : preserves fl (FileLock.any_lock o w fl kind).fl := by
    rw [any_lock_fl_eq]; exact hof
  have hul : preserves fl (FileLock.unlock o w fl).fl := by
    rw [unlock_fl_eq]; exact ⟨rfl, rfl, fun fd h => h⟩
  refine ⟨hal, ?_, ?_, hul, ?_, ?_, rfl⟩
  · rw [show FileLock.lock o w fl = FileLock.any_lock o w fl LockKind.Blocking from rfl,
        any_lock_fl_eq]
    exact hof
  · rw [show FileLock.try_lock o w fl = FileLock.any_lock o w fl LockKind.NonBlocking from rfl,
        any_lock_fl_eq]
    exact hof
  · rw [(drop_parts o w fl).1, unlock_fl_eq]
    exact ⟨rfl, rfl, fun fd h => h⟩
  · intro fd hf
    have ho : FileLock.opened_file o w fl =
        { res := Except.ok fd, fl := fl, w := w, tr := [] } := by
      simp [FileLock.opened_file, hf]
    simp only [FileLock.any_lock, ho]
    cases hp : primLock o w fd kind fl.mode with
    | mk pr w3 => cases pr <;> simp [hp]

/-- Witness for C6 on a cached reader under a blocking request. -/
theorem state_invariant_witness :
    (FileLock.any_lock oracle0 world0 flCached LockKind.Blocking).fl.file = some 0 ∧
    (FileLock.any_lock oracle0 world0 flCached LockKind.Blocking).tr =
      [Event.lockCall 0 LockKind.Blocking AccessMode.Read] :=
  ⟨(state_invariant oracle0 world0 flCached LockKind.Blocking).1.2.2 0 rfl,
   (state_invariant oracle0 world0 flCached LockKind.Blocking).2.2.2.2.2.1 0 rfl⟩

/-- The traces of handle acquisition: empty (cached) or a single open call. -/
theorem opened_file_tr_cases (o : Oracle) (w : World) (fl : FileLock) :
    (FileLock.opened_file o w fl).tr = [] ∨
    (FileLock.opened_file o w fl).tr =
      [Event.openCall fl.path true (fl.mode == AccessMode.Read)
         (fl.mode == AccessMode.Write)] := by
  unfold FileLock.opened_file osOpen
  cases hf : fl.file with
  | some fd => simp
  | none => cases ho : o.openErr fl.path <;> simp

/-- Handle acquisition only ever adds to the set of existing files. -/
theorem opened_file_files_mono (o : Oracle) (w : World) (fl : FileLock) (p : String)
    (h : w.files.contains p = true) :
    (FileLock.opened_file o w fl).w.files.contains p = true := by
  unfold FileLock.opened_file osOpen
  cases hf : fl.file with
  | some fd => simpa using h
  | none =>
    cases ho : o.openErr fl.path with
    | some e => simpa using h
    | none =>
      simp at h ⊢
      split
      · exact h
      · exact List.mem_cons_of_mem _ h

/-- Acquisition only ever adds to the set of existing files. -/
theorem any_lock_files_mono (o : Oracle) (w : World) (fl : FileLock) (kind : LockKind)
    (p : String) (h : w.files.contains p = true) :
    (FileLock.any_lock o w fl kind).w.files.contains p = true := by
  have hmono := opened_file_files_mono o w fl p h
  unfold FileLock.any_lock
  cases ho : FileLock.opened_file o w fl with
  | mk r fl2 w2 tr =>
    rw [ho] at hmono
    have h2 : w2.files.contains p = true := hmono
    cases r with
    | error e => simpa using h2
    | ok fd =>
      cases hp : primLock o w2 fd kind fl2.mode with
      | mk pr w3 =>
        have h3 : w3.files = w2.files := by
          have := (primLock_frame o w2 fd kind fl2.mode).1
          rw [hp] at this
          exact this
        have h2m : p ∈ w2.files := by simpa using h2
        cases pr <;> simp [hp, h3, h2m]

/-- Release never removes a file. -/
theorem unlock_files_eq (o : Oracle) (w : World) (fl : FileLock) :
    (FileLock.unlock o w fl).w.files = w.files := by
  unfold FileLock.unlock
  cases hf : fl.file with
  | none => simp
  | some fd =>
    cases hp : primUnlock o w fd with
    | mk r w2 =>
      have h2 : w2.files = w.files := by
        have := (primUnlock_frame o w fd).1
        rw [hp] at this
        exact this
      cases r <;> simp [hp, h2]

/-- Acquisition never issues a deletion request. -/
theorem any_lock_noDelete (o : Oracle) (w : World) (fl : FileLock) (kind : LockKind) :
    hasDelete (FileLock.any_lock o w fl kind).tr = false := by
  have htr := opened_file_tr_cases o w fl
  unfold FileLock.any_lock
  cases ho : FileLock.opened_file o w fl with
  | mk r fl2 w2 tr =>
    rw [ho] at htr
    have htr2 : tr = [] ∨ tr =
        [Event.openCall fl.path true (fl.mode == AccessMode.Read)
           (fl.mode == AccessMode.Write)] := htr
    cases r with
    | error e => rcases htr2 with h | h <;> simp [h, hasDelete]
    | ok fd =>
      cases hp : primLock o w2 fd kind fl2.mode with
      | mk pr w3 => rcases htr2 with h | h <;> cases pr <;> simp [hp, h, hasDelete]

/-- Release never issues a deletion request. -/
theorem unlock_noDelete (o : Oracle) (w : World) (fl : FileLock) :
    hasDelete (FileLock.unlock o w fl).tr = false := by
  unfold FileLock.unlock
  cases hf : fl.file with
  | none => simp [hasDelete]
  | some fd =>
    cases hp : primUnlock o w fd with
    | mk r w2 => cases r <;> simp [hp, hasDelete]

/-- Claim C7: no operation ever requests a file deletion, and every file that
existed before an operation still exists after it — in particular a
successful `unlock` leaves the lock file in existence (the removal promised
by the type's documentation comment never happens). -/
theorem no_deletion (o : Oracle) (w : World) (fl : FileLock) (kind : LockKind)
    (p : String) :
    hasDelete (FileLock.any_lock o w fl kind).tr = false ∧
    hasDelete (FileLock.lock o w fl).tr = false ∧
    hasDelete (FileLock.try_lock o w fl).tr = false ∧
    hasDelete (FileLock.unlock o w fl).tr = false ∧
    hasDelete (FileLock.drop o w fl).tr = false ∧
    (w.files.contains p = true →
      (FileLock.any_lock o w fl kind).w.files.contains p = true) ∧
    (FileLock.unlock o w fl).w.files = w.files ∧
    (FileLock.drop o w fl).w.files = w.files := by
  refine ⟨any_lock_noDelete o w fl kind, any_lock_noDelete o w fl LockKind.Blocking,
    any_lock_noDelete o w fl LockKind.NonBlocking, unlock_noDelete o w fl, ?_,
    any_lock_files_mono o w fl kind p, unlock_files_eq o w fl, ?_⟩
  · rw [(drop_parts o w fl).2.2]
    exact unlock_noDelete o w fl
  · rw [(drop_parts o w fl).2.1]
    exact unlock_files_eq o w fl

/-- Witness for C7: dropping the lock-holding writer deletes nothing and the
lock file survives. -/
theorem no_deletion_witness :
    hasDelete (FileLock.drop oracle0 worldHeld flWriter).tr = false ∧
    (FileLock.drop oracle0 worldHeld flWriter).w.files = worldHeld.files :=
  ⟨(no_deletion oracle0 worldHeld flWriter LockKind.Blocking "p").2.2.2.2.1,
   (no_deletion oracle0 worldHeld flWriter LockKind.Blocking "p").2.2.2.2.2.2.2⟩

/-- A blocking `lock` on a cached, valid, uncontended descriptor with no
injected failure succeeds, recording the lock. -/
theorem lock_cached_ok (o : Oracle) (w : World) (fl : FileLock) (fd : Nat)
    (hfd : fl.file = some fd)
    (hlook : w.openFds.lookup fd = some fl.path)
    (hunc : conflicts w.locks fd fl.path fl.mode = false)
    (hlf : o.lockFail fd LockKind.Blocking fl.mode = none) :
    FileLock.lock o w fl =
      { res := some (Except.ok ()), fl := fl,
        w := { w with
          locks := (fd, fl.path, fl.mode) :: w.locks.filter fun e => !(e.1 == fd) },
        tr := [Event.lockCall fd LockKind.Blocking fl.mode] } := by
  have ho : FileLock.opened_file o w fl =
      { res := Except.ok fd, fl := fl, w := w, tr := [] } := by
    simp [FileLock.opened_file, hfd]
  simp only [FileLock.lock, FileLock.any_lock, ho]
  simp [primLock, hlook, hunc, hlf]

/-- An `unlock` on a cached, valid descriptor with no injected failure
succeeds, releasing every lock entry of that descriptor. -/
theorem unlock_cached_ok (o : Oracle) (w : World) (fl : FileLock) (fd : Nat)
    (hfd : fl.file = some fd)
    (hlook : w.openFds.lookup fd = some fl.path)
    (huf : o.unlockFail fd = none) :
    FileLock.unlock o w fl =
      { res := Except.ok (), fl := fl,
        w := { w with locks := w.locks.filter fun e => !(e.1 == fd) },
        tr := [Event.unlockCall fd] } := by
  simp [FileLock.unlock, hfd, primUnlock, hlook, huf]

/-- Claim C8: on an instance whose descriptor is (or, once opened, becomes)
valid, with open succeeding, no injected primitive failure and no lock
contention, the sequence lock; unlock; lock on the same instance succeeds at
every step. -/
theorem round_trip (o : Oracle) (w : World) (fl : FileLock)
    (hopen : fl.file = none → o.openErr fl.path = none)
    (hvalid : ∀ fd, fl.file = some fd → w.openFds.lookup fd = some fl.path)
    (hlf : ∀ fd k m, o.lockFail fd k m = none)
    (huf : ∀ fd, o.unlockFail fd = none)
    (hunc : conflicts w.locks (fl.file.getD w.nextFd) fl.path fl.mode = false) :
    (FileLock.lock o w fl).res = some (Except.ok ()) ∧
    (FileLock.unlock o (FileLock.lock o w fl).w (FileLock.lock o w fl).fl).res =
      Except.ok () ∧
    (FileLock.lock o
        (FileLock.unlock o (FileLock.lock o w fl).w (FileLock.lock o w fl).fl).w
        (FileLock.unlock o (FileLock.lock o w fl).w (FileLock.lock o w fl).fl).fl).res =
      some (Except.ok ()) := by
  have key : ∃ fd,
      (FileLock.lock o w fl).res = some (Except.ok ()) ∧
      (FileLock.lock o w fl).fl.file = some fd ∧
      (FileLock.lock o w fl).fl.path = fl.path ∧
      (FileLock.lock o w fl).fl.mode = fl.mode ∧
      (FileLock.lock o w fl).w.openFds.lookup fd = some fl.path ∧
      conflicts ((FileLock.lock o w fl).w.locks.filter fun e => !(e.1 == fd))
        fd fl.path fl.mode = false := by
    cases hf : fl.file with
    | some fd =>
      have hunc2 : conflicts w.locks fd fl.path fl.mode = false := by
        rw [hf] at hunc
        simpa using hunc
      have h1 := lock_cached_ok o w fl fd hf (hvalid fd hf) hunc2
        (hlf fd LockKind.Blocking fl.mode)
      refine ⟨fd, ?_, ?_, ?_, ?_, ?_, ?_⟩ <;> rw [h1]
      · exact hf
      · exact hvalid fd hf
      · have hfc : ((fd, fl.path, fl.mode) :: w.locks.filter fun e => !(e.1 == fd)).filter
            (fun e => !(e.1 == fd)) =
            (w.locks.filter fun e => !(e.1 == fd)).filter fun e => !(e.1 == fd) := by
          simp [List.filter_cons]
        rw [hfc]
        exact conflicts_filter_false _ _ _ _ _ (conflicts_filter_false _ _ _ _ _ hunc2)
    | none =>
      have he := hopen hf
      have hunc2 : conflicts w.locks w.nextFd fl.path fl.mode = false := by
        rw [hf] at hunc
        simpa using hunc
      have ho : FileLock.opened_file o w fl =
          { res := Except.ok w.nextFd,
            fl := { fl with file := some w.nextFd },
            w := { files := if w.files.contains fl.path then w.files
                            else fl.path :: w.files,
                   nextFd := w.nextFd + 1,
                   openFds := (w.nextFd, fl.path) :: w.openFds,
                   locks := w.locks },
            tr := [Event.openCall fl.path true (fl.mode == AccessMode.Read)
                     (fl.mode == AccessMode.Write)] } := by
        unfold FileLock.opened_file osOpen
        rw [hf, he]
        simp
      have h1 : FileLock.lock o w fl =
          { res := some (Except.ok ()),
            fl := { fl with file := some w.nextFd },
            w := { files := if w.files.contains fl.path then w.files
                            else fl.path :: w.files,
                   nextFd := w.nextFd + 1,
                   openFds := (w.nextFd, fl.path) :: w.openFds,
                   locks := (w.nextFd, fl.path, fl.mode) ::
                     w.locks.filter fun e => !(e.1 == w.nextFd) },
            tr := [Event.openCall fl.path true (fl.mode == AccessMode.Read)
                     (fl.mode == AccessMode.Write),
                   Event.lockCall w.nextFd LockKind.Blocking fl.mode] } := by
        simp only [FileLock.lock, FileLock.any_lock, ho]
        simp [primLock, List.lookup, hunc2, hlf]
      refine ⟨w.nextFd, ?_, ?_, ?_, ?_, ?_, ?_⟩ <;> rw [h1]
      · simp [List.lookup]
      · have hfc : ((w.nextFd, fl.path, fl.mode) ::
              w.locks.filter fun e => !(e.1 == w.nextFd)).filter
            (fun e => !(e.1 == w.nextFd)) =
            (w.locks.filter fun e => !(e.1 == w.nextFd)).filter
              fun e => !(e.1 == w.nextFd) := by
          simp [List.filter_cons]
        rw [hfc]
        exact conflicts_filter_false _ _ _ _ _ (conflicts_filter_false _ _ _ _ _ hunc2)
  obtain ⟨fd, hres, hfile, hpath, hmode, hlook, hconf⟩ := key
  have hu := unlock_cached_ok o (FileLock.lock o w fl).w (FileLock.lock o w fl).fl fd
    hfile (by rw [hpath]; exact hlook) (huf fd)
  refine ⟨hres, ?_, ?_⟩
  · simp only [hu]
  · have h3 := lock_cached_ok o
      { (FileLock.lock o w fl).w with
        locks := (FileLock.lock o w fl).w.locks.filter fun e => !(e.1 == fd) }
      (FileLock.lock o w fl).fl fd hfile
      (by rw [hpath]; exact hlook)
      (by rw [hpath, hmode]; exact hconf)
      (hlf fd LockKind.Blocking (FileLock.lock o w fl).fl.mode)
    simp only [hu]
    rw [h3]

/-- Witness for C8: the full round trip from a fresh reader in the empty
world. -/
theorem round_trip_witness :
    (FileLock.lock oracle0 world0 flFresh).res = some (Except.ok ()) ∧
    (FileLock.unlock oracle0 (FileLock.lock oracle0 world0 flFresh).w
        (FileLock.lock oracle0 world0 flFresh).fl).res = Except.ok () ∧
    (FileLock.lock oracle0
        (FileLock.unlock oracle0 (FileLock.lock oracle0 world0 flFresh).w
            (FileLock.lock oracle0 world0 flFresh).fl).w
        (FileLock.unlock oracle0 (FileLock.lock oracle0 world0 flFresh).w
            (FileLock.lock oracle0 world0 flFresh).fl).fl).res =
      some (Except.ok ()) :=
  round_trip oracle0 world0 flFresh (fun _ => rfl) (fun _ h => Option.noConfusion h)
    (fun _ _ _ => rfl) (fun _ => rfl) rfl

/-- Claim C9: while a Write lock is held on the path by another descriptor,
`try_lock` on a second, independently opened instance (either mode) fails
with the would-block contention error and changes nothing; once the holder
unlocks — or is dropped — and no other conflicting holder remains, the same
`try_lock` succeeds. -/
theorem write_lock_excludes (o : Oracle) (w : World) (fl2 : FileLock) (fd1 fd2 : Nat)
    (hheld : (fd1, fl2.path, AccessMode.Write) ∈ w.locks)
    (hfl2 : fl2.file = some fd2)
    (hne : fd2 ≠ fd1)
    (hlook : w.openFds.lookup fd2 = some fl2.path) :
    (FileLock.try_lock o w fl2).res =
      some (Except.error (Error.LockError LockPrimError.wouldBlock)) ∧
    (FileLock.try_lock o w fl2).w = w ∧
    (FileLock.try_lock o w fl2).fl = fl2 ∧
    (∀ fl1, fl1.file = some fd1 → w.openFds.lookup fd1 = some fl1.path →
      o.unlockFail fd1 = none →
      conflicts (w.locks.filter fun e => !(e.1 == fd1)) fd2 fl2.path fl2.mode = false →
      o.lockFail fd2 LockKind.NonBlocking fl2.mode = none →
      (FileLock.try_lock o (FileLock.unlock o w fl1).w fl2).res =
        some (Except.ok ()) ∧
      (FileLock.try_lock o (FileLock.drop o w fl1).w fl2).res =
        some (Except.ok ())) := by
  have hconf : conflicts w.locks fd2 fl2.path fl2.mode = true :=
    conflicts_of_mem_write w.locks fd1 fd2 fl2.path fl2.mode hheld hne
  have ho : FileLock.opened_file o w fl2 =
      { res := Except.ok fd2, fl := fl2, w := w, tr := [] } := by
    simp [FileLock.opened_file, hfl2]
  have ht : FileLock.try_lock o w fl2 =
      { res := some (Except.error (Error.LockError LockPrimError.wouldBlock)),
        fl := fl2, w := w,
        tr := [Event.lockCall fd2 LockKind.NonBlocking fl2.mode] } := by
    simp only [FileLock.try_lock, FileLock.any_lock, ho]
    simp [primLock, hlook, hconf]
  refine ⟨by rw [ht], by rw [ht], by rw [ht], ?_⟩
  intro fl1 hf1 hlook1 huf1 hnoc hlf2
  have hu := unlock_cached_ok o w fl1 fd1 hf1 hlook1 huf1
  have ht2 : (FileLock.try_lock o
      { w with locks := w.locks.filter fun e => !(e.1 == fd1) } fl2).res =
      some (Except.ok ()) := by
    have ho2 : FileLock.opened_file o
        { w with locks := w.locks.filter fun e => !(e.1 == fd1) } fl2 =
        { res := Except.ok fd2, fl := fl2,
          w := { w with locks := w.locks.filter fun e => !(e.1 == fd1) },
          tr := [] } := by
      simp [FileLock.opened_file, hfl2]
    simp only [FileLock.try_lock, FileLock.any_lock, ho2]
    simp [primLock, hlook, hnoc, hlf2]
  constructor
  · have hw : (FileLock.unlock o w fl1).w =
        { w with locks := w.locks.filter fun e => !(e.1 == fd1) } := by
      rw [hu]
    rw [hw]
    exact ht2
  · have hw2 : (FileLock.drop o w fl1).w =
        { w with locks := w.locks.filter fun e => !(e.1 == fd1) } := by
      rw [(drop_parts o w fl1).2.1, hu]
    rw [hw2]
    exact ht2

/-- Witness for C9: descriptor 0 holds the Write lock on "p", so the reader on
descriptor 1 is refused; after the writer is dropped it succeeds. -/
theorem write_lock_excludes_witness :
    (FileLock.try_lock oracle0 worldHeld flReader).res =
      some (Except.error (Error.LockError LockPrimError.wouldBlock)) ∧
    (FileLock.try_lock oracle0 (FileLock.drop oracle0 worldHeld flWriter).w
        flReader).res = some (Except.ok ()) := by
  have h := write_lock_excludes oracle0 worldHeld flReader 0 1
    (List.mem_singleton.mpr rfl) rfl (by decide) rfl
  exact ⟨h.1, (h.2.2.2 flWriter rfl rfl rfl rfl rfl).2⟩

end Flock
